import Mathlib

/-!
Verification of the pyqode.core editor widget.

The development shallowly embeds the parts of the code base that the
properties below speak about:

* the mode / panel plugin registries driven by the tests in
  test/test_api/test_extension.py (the manager classes themselves live in
  pyqode/core/managers, outside the sources at hand, so they are modelled
  from the specification and from the behaviour the tests exercise);
* the CodeEdit widget state: configuration properties with their
  clone-propagating setters, the zoom level, the clone/link protocol and
  document sharing, zoom_in / zoom_out, the smart home key and show_tooltip
  (pyqode/core/api/code_edit.py);
* the automatic indenter (pyqode/core/modes/autoindent.py).
-/

set_option autoImplicit false

namespace PyQode

/-! ## Plugin registries (modes and panels managers) -/

/-- A mode instance: the name of its Python class together with an object
identity, so that statements such as "get returns the very same object"
are expressible. -/
structure ModeObj where
  cls : String
  instId : Nat
deriving DecidableEq

/-- Modelled from the spec: the modes manager (pyqode.core.managers, not under
src/) is a plugin registry keyed by class name.  Python stores the modes in a
dict, so installing a mode under an already-present class name overwrites the
old entry; `append` installs the mode under its class name. -/
def modesAppend (r : List ModeObj) (m : ModeObj) : List ModeObj :=
  r.filter (fun x => !(x.cls == m.cls)) ++ [m]

/-- Modelled from the spec: retrieve the installed mode of the given class. -/
def modesGet (r : List ModeObj) (cls : String) : Option ModeObj :=
  r.find? (fun x => x.cls == cls)

/-- Modelled from the spec: remove the installed mode of the given class and
return it; a KeyError (the `Except.error` branch) is raised when no mode of
that class is installed. -/
def modesRemove (r : List ModeObj) (cls : String) :
    Except Unit (ModeObj × List ModeObj) :=
  match r.find? (fun x => x.cls == cls) with
  | none => Except.error ()
  | some m => Except.ok (m, r.filter (fun x => !(x.cls == cls)))

/-- Modelled from the spec: uninstall every mode. -/
def modesClear (_r : List ModeObj) : List ModeObj := []

/-- The four margin zones a panel can be installed in
(Panel.Position.LEFT / RIGHT / TOP / BOTTOM). -/
inductive ZonePosition where
  | left
  | right
  | top
  | bottom
deriving DecidableEq

/-- A panel instance: class name, object identity and the zone it currently
occupies. -/
structure PanelObj where
  cls : String
  instId : Nat
  position : ZonePosition
deriving DecidableEq

/-- Modelled from the spec: the panels manager (pyqode.core.managers, not under
src/) installs a panel in the requested margin zone: the panel's `position`
attribute is set to the zone given at installation and the panel is stored
under its class name. -/
def panelsAppend (r : List PanelObj) (p : PanelObj) (pos : ZonePosition) :
    List PanelObj :=
  r.filter (fun x => !(x.cls == p.cls)) ++ [{ p with position := pos }]

/-- Modelled from the spec: retrieve the installed panel of the given class. -/
def panelsGet (r : List PanelObj) (cls : String) : Option PanelObj :=
  r.find? (fun x => x.cls == cls)

/-- Modelled from the spec: remove the installed panel of the given class and
return it; KeyError when no panel of that class is installed. -/
def panelsRemove (r : List PanelObj) (cls : String) :
    Except Unit (PanelObj × List PanelObj) :=
  match r.find? (fun x => x.cls == cls) with
  | none => Except.error ()
  | some p => Except.ok (p, r.filter (fun x => !(x.cls == cls)))

/-- Modelled from the spec: uninstall every panel. -/
def panelsClear (_r : List PanelObj) : List PanelObj := []

/-! ## The CodeEdit widget state (pyqode/core/api/code_edit.py)

An editor owns a text document (modelled by its identity, a `Nat` index into
a document heap, since `setDocument` makes two widgets reference the very
same `QTextDocument` object), file-manager information, its configuration
properties, and the list of clones created by `split`.  The rendering
side-effects of the real setters (`_reset_stylesheet`,
`_set_whitespaces_flags`, repaints) act on the Qt paint pipeline and carry no
editor state, so they have no counterpart here. -/

/-- The file-manager information copied by `link`
(`clone.file._path/_encoding/_mimetype`). -/
structure FileInfo where
  path : String
  encoding : String
  mimetype : String
deriving DecidableEq

/-- The configuration properties of a CodeEdit, as initialised in
`__init__` / `_init_settings` / `_init_style` and copied by `link`.
Colors (QColor) are modelled by an optional color name. -/
structure EditorCfg where
  use_spaces_instead_of_tabs : Bool
  tab_length : Int
  min_indent_column : Int
  save_on_focus_out : Bool
  show_whitespaces : Bool
  font_name : String
  font_size : Int
  zoom_level : Int
  background : Option String
  foreground : Option String
  whitespaces_foreground : Option String
  selection_background : Option String
  selection_foreground : Option String
  word_separators : List Char
deriving DecidableEq

/-- A CodeEdit widget: configuration, document identity, file information and
the clones registered by `split` (each clone is itself an editor). -/
inductive Editor where
  | mk (cfg : EditorCfg) (doc : Nat) (file : FileInfo) (clones : List Editor)

/-- Configuration of an editor. -/
def Editor.cfg : Editor → EditorCfg
  | .mk c _ _ _ => c

/-- Identity of the underlying text document (`self.document()`). -/
def Editor.doc : Editor → Nat
  | .mk _ d _ _ => d

/-- File-manager information of an editor. -/
def Editor.file : Editor → FileInfo
  | .mk _ _ f _ => f

/-- The clones registered on an editor (`self.clones`). -/
def Editor.clones : Editor → List Editor
  | .mk _ _ _ cs => cs

def Editor.use_spaces_instead_of_tabs (e : Editor) : Bool :=
  e.cfg.use_spaces_instead_of_tabs

def Editor.tab_length (e : Editor) : Int := e.cfg.tab_length

def Editor.min_indent_column (e : Editor) : Int := e.cfg.min_indent_column

def Editor.save_on_focus_out (e : Editor) : Bool := e.cfg.save_on_focus_out

def Editor.show_whitespaces (e : Editor) : Bool := e.cfg.show_whitespaces

def Editor.font_name (e : Editor) : String := e.cfg.font_name

def Editor.font_size (e : Editor) : Int := e.cfg.font_size

def Editor.zoom_level (e : Editor) : Int := e.cfg.zoom_level

def Editor.background (e : Editor) : Option String := e.cfg.background

def Editor.foreground (e : Editor) : Option String := e.cfg.foreground

def Editor.whitespaces_foreground (e : Editor) : Option String :=
  e.cfg.whitespaces_foreground

def Editor.selection_background (e : Editor) : Option String :=
  e.cfg.selection_background

def Editor.selection_foreground (e : Editor) : Option String :=
  e.cfg.selection_foreground

def Editor.word_separators (e : Editor) : List Char := e.cfg.word_separators

mutual
/-- Shape shared by every clone-propagating property setter of CodeEdit:
perform the field assignment on the editor itself, then perform the very same
assignment on every clone (`for c in self.clones: c.prop = value`), which in
turn recurses into the clones of the clones. -/
def propagate (f : EditorCfg → EditorCfg) : Editor → Editor
  | .mk c d fl cs => .mk (f c) d fl (propagateList f cs)

/-- Propagation of a configuration assignment over a list of clones. -/
def propagateList (f : EditorCfg → EditorCfg) : List Editor → List Editor
  | [] => []
  | e :: es => propagate f e :: propagateList f es
end

/-- Setter of `use_spaces_instead_of_tabs` (code_edit.py lines 122-126). -/
def set_use_spaces_instead_of_tabs (v : Bool) : Editor → Editor :=
  propagate (fun c => { c with use_spaces_instead_of_tabs := v })

/-- Setter of `tab_length` (lines 133-137). -/
def set_tab_length (v : Int) : Editor → Editor :=
  propagate (fun c => { c with tab_length := v })

/-- Setter of `min_indent_column` (lines 148-152). -/
def set_min_indent_column (v : Int) : Editor → Editor :=
  propagate (fun c => { c with min_indent_column := v })

/-- Setter of `save_on_focus_out` (lines 163-167). -/
def set_save_on_focus_out (v : Bool) : Editor → Editor :=
  propagate (fun c => { c with save_on_focus_out := v })

/-- Setter of `show_whitespaces` (lines 176-181); `_set_whitespaces_flags`
only touches the Qt text option flags. -/
def set_show_whitespaces (v : Bool) : Editor → Editor :=
  propagate (fun c => { c with show_whitespaces := v })

/-- The default font family (`_DEFAULT_FONT`); on darwin the code uses
"Monaco" instead, which none of the theorems below depend on. -/
def defaultFontName : String := "Source Code Pro"

/-- Setter of `font_name` (lines 190-197): an empty value is replaced by the
default font before being stored and propagated; the re-check performed by
each clone's setter is vacuous because the propagated value is non-empty. -/
def set_font_name (v : String) : Editor → Editor :=
  propagate (fun c =>
    { c with font_name := if v = "" then defaultFontName else v })

/-- Setter of `font_size` (lines 226-231). -/
def set_font_size (v : Int) : Editor → Editor :=
  propagate (fun c => { c with font_size := v })

/-- Setter of `background` (lines 240-245). -/
def set_background (v : Option String) : Editor → Editor :=
  propagate (fun c => { c with background := v })

/-- Setter of `foreground` (lines 254-259). -/
def set_foreground (v : Option String) : Editor → Editor :=
  propagate (fun c => { c with foreground := v })

/-- Setter of `whitespaces_foreground` (lines 271-275). -/
def set_whitespaces_foreground (v : Option String) : Editor → Editor :=
  propagate (fun c => { c with whitespaces_foreground := v })

/-- Setter of `selection_background` (lines 284-289). -/
def set_selection_background (v : Option String) : Editor → Editor :=
  propagate (fun c => { c with selection_background := v })

/-- Setter of `selection_foreground` (lines 298-302). -/
def set_selection_foreground (v : Option String) : Editor → Editor :=
  propagate (fun c => { c with selection_foreground := v })

/-- Direct write of the private `_word_separators` field of one editor,
leaving its clones untouched (`c._word_separators = value`). -/
def writeWordSeparators (v : List Char) : Editor → Editor
  | .mk c d fl cs => .mk { c with word_separators := v } d fl cs

/-- Setter of `word_separators` (lines 312-316): unlike the other setters it
writes the private field of each direct clone, so it does not recurse into
clones of clones. -/
def set_word_separators (v : List Char) : Editor → Editor
  | .mk c d fl cs =>
      .mk { c with word_separators := v } d fl (cs.map (writeWordSeparators v))

/-- Setter of `zoom_level` (lines 210-212): a plain assignment, with no
propagation to the clones. -/
def set_zoom_level (v : Int) : Editor → Editor
  | .mk c d fl cs => .mk { c with zoom_level := v } d fl cs

/-- Qt's `setDocument`: the widget now references the given text document. -/
def setDocument (d : Nat) : Editor → Editor
  | .mk c _ fl cs => .mk c d fl cs

/-- Replace the file-manager information (the direct writes
`clone.file._path = self.file.path` etc. at the start of `link`). -/
def setFileInfo (fl : FileInfo) : Editor → Editor
  | .mk c d _ cs => .mk c d fl cs

/-- CodeEdit.link (lines 509-542): copy the file manager information, make the
clone reference the original's text document, then assign every configuration
property of the original to the clone through the ordinary property setters,
in source order.  The loops that copy mode/panel enabled states and the final
`clone.file.clone_settings(self.file)` act on manager objects that live
outside the sources at hand and carry no state in this model. -/
def link (orig clone : Editor) : Editor :=
  let c0 := setFileInfo orig.file clone
  let c1 := setDocument orig.doc c0
  let c2 := set_use_spaces_instead_of_tabs orig.use_spaces_instead_of_tabs c1
  let c3 := set_tab_length orig.tab_length c2
  let c4 := set_min_indent_column orig.min_indent_column c3
  let c5 := set_save_on_focus_out orig.save_on_focus_out c4
  let c6 := set_show_whitespaces orig.show_whitespaces c5
  let c7 := set_font_name orig.font_name c6
  let c8 := set_font_size orig.font_size c7
  let c9 := set_zoom_level orig.zoom_level c8
  let c10 := set_background orig.background c9
  let c11 := set_foreground orig.foreground c10
  let c12 := set_whitespaces_foreground orig.whitespaces_foreground c11
  let c13 := set_selection_background orig.selection_background c12
  let c14 := set_selection_foreground orig.selection_foreground c13
  set_word_separators orig.word_separators c14

/-- A heap of text documents: document identity to text. -/
def DocHeap : Type := Nat → String

/-- A text edit performed through a widget rewrites the document the widget
references and no other. -/
def editThrough (h : DocHeap) (e : Editor) (f : String → String) : DocHeap :=
  fun d => if d = e.doc then f (h d) else h d

/-- The text visible through a widget is the text of the document it
references. -/
def readThrough (h : DocHeap) (e : Editor) : String := h e.doc

/-- CodeEdit.zoom_in (lines 718-727): add the increment to the zoom level;
no clamping is performed. -/
def zoom_in (e : Editor) (increment : Int) : Editor :=
  set_zoom_level (e.zoom_level + increment) e

/-- CodeEdit.zoom_out (lines 729-742): subtract the decrement from the zoom
level, then clamp the zoom level to `-font_size + 1` whenever the effective
font size `font_size + zoom_level` has become non-positive. -/
def zoom_out (e : Editor) (decrement : Int) : Editor :=
  let e1 := set_zoom_level (e.zoom_level - decrement) e
  if e1.font_size + e1.zoom_level ≤ 0 then
    set_zoom_level (-e1.font_size + 1) e1
  else e1

/-- A sample configuration, matching the defaults set in `__init__`. -/
def sampleCfg : EditorCfg where
  use_spaces_instead_of_tabs := true
  tab_length := 4
  min_indent_column := 0
  save_on_focus_out := false
  show_whitespaces := false
  font_name := defaultFontName
  font_size := 10
  zoom_level := 0
  background := some "white"
  foreground := some "black"
  whitespaces_foreground := some "light gray"
  selection_background := some "highlight"
  selection_foreground := some "highlightedText"
  word_separators := [' ', '\t']

/-- Sample file information. -/
def sampleFile : FileInfo where
  path := "test_extension.py"
  encoding := "utf-8"
  mimetype := "text/x-python"

/-- A clone editor with no further clones. -/
def sampleClone : Editor := .mk sampleCfg 0 sampleFile []

/-- An editor holding one clone. -/
def sampleEditor : Editor := .mk sampleCfg 0 sampleFile [sampleClone]

/-! ## Key handling: the automatic indenter and the smart home key

Text is a list of characters with a cursor offset.  The line under the cursor
is the maximal newline-free segment around the cursor. -/

/-- Whitespace as matched by the Python regex \s on the characters of a
line. -/
def isPyWhitespace (c : Char) : Bool :=
  c == ' ' || c == '\t' || c == '\n' || c == '\r' ||
    c == Char.ofNat 11 || c == Char.ofNat 12

/-- Qt key code of the Return key. -/
def qtKeyReturn : Nat := 16777220

/-- Qt key code of the keypad Enter key. -/
def qtKeyEnter : Nat := 16777221

/-- A key event: the key code and whether the event has already been
accepted by a previous handler. -/
structure KeyEvent where
  key : Nat
  accepted : Bool
deriving DecidableEq

/-- A text document with a cursor offset into it. -/
structure EditorText where
  text : List Char
  pos : Nat
deriving DecidableEq

/-- The line under the cursor (QTextCursor.select(LineUnderCursor)): the
newline-free segment of the text around the cursor offset. -/
def lineUnderCursor (text : List Char) (pos : Nat) : List Char :=
  ((text.take pos).reverse.takeWhile (fun c => !(c == '\n'))).reverse ++
    (text.drop pos).takeWhile (fun c => !(c == '\n'))

/-- AutoIndentMode._get_indent (autoindent.py lines 20-38): the leading
whitespace of the line under the cursor, replaced by min_indent whenever it
is shorter than min_indent; the text before the new line is always empty. -/
def getIndent (minIndent : List Char) (text : List Char) (pos : Nat) :
    List Char :=
  let indent := (lineUnderCursor text pos).takeWhile isPyWhitespace
  if indent.length < minIndent.length then minIndent else indent

/-- Qt's WordRight cursor move starting inside the current line, used with a
kept anchor: the selection runs over the current word (if the cursor is on
one) and the following space/tab run, up to the start of the next word and
never past the end of the line. -/
def qtWordRightSelection (s : List Char) : List Char :=
  let word := s.takeWhile (fun c => !(c == ' ') && !(c == '\t') && !(c == '\n'))
  let seps := (s.drop word.length).takeWhile (fun c => c == ' ' || c == '\t')
  word ++ seps

/-- The whitespace-eating step of AutoIndentMode._on_key_pressed (lines
58-64): select up to the next word; when the selection starts with a space,
replace it by itself minus all spaces (provided that shrank it).  Returns the
new text after the cursor and how many of its characters the replacement put
before the cursor. -/
def eatPossibleWhitespaces (suffix : List Char) : List Char × Nat :=
  let txt := qtWordRightSelection suffix
  if txt.head? = some ' ' then
    let newTxt := txt.filter (fun c => !(c == ' '))
    if newTxt.length < txt.length then
      (newTxt ++ suffix.drop txt.length, newTxt.length)
    else (suffix, 0)
  else (suffix, 0)

/-- AutoIndentMode._on_key_pressed (lines 46-66): an already-accepted event is
ignored; on Return/Enter the indent computed by _get_indent is inserted after
a newline at the cursor, possible whitespaces after the cursor are eaten, and
the event is accepted. -/
def autoIndentOnKeyPressed (minIndent : List Char) (ev : KeyEvent)
    (st : EditorText) : EditorText × Bool :=
  if ev.accepted then (st, ev.accepted)
  else if ev.key = qtKeyReturn ∨ ev.key = qtKeyEnter then
    let indent := getIndent minIndent st.text st.pos
    let eaten := eatPossibleWhitespaces (st.text.drop st.pos)
    ({ text := st.text.take st.pos ++ '\n' :: (indent ++ eaten.1),
       pos := st.pos + 1 + indent.length + eaten.2 }, true)
  else (st, ev.accepted)

/-- The key_pressed handler of the mode as wired by _on_state_changed
(lines 40-44): the handler only runs while the mode is enabled. -/
def autoIndentModeKeyPress (enabled : Bool) (minIndent : List Char)
    (ev : KeyEvent) (st : EditorText) : EditorText × Bool :=
  if enabled then autoIndentOnKeyPressed minIndent ev st else (st, ev.accepted)

/-- Modelled from the spec: TextHelper.line_indent (pyqode/core/api/utils.py,
not under src/) returns the indentation width of the line under the cursor,
the number of its leading whitespace characters. -/
def line_indent (line : List Char) : Nat :=
  (line.takeWhile isPyWhitespace).length

/-- Qt's QTextCursor.movePosition(Left, mode, n) performs the one-character
left move n times; when n is smaller than 1 the loop body never runs and the
cursor does not move. -/
def qtMoveLeft (col : Nat) (n : Int) : Nat :=
  if 1 ≤ n then col - n.toNat else col

/-- CodeEdit._do_home_key (lines 1173-1188) acting on the line under the
cursor: delta is the cursor column minus the line indentation; a non-zero
delta triggers a left move by delta, a zero delta a move to the start of the
block.  Only the cursor moves, the text is returned untouched. -/
def do_home_key (line : List Char) (col : Nat) : List Char × Nat :=
  let delta : Int := (col : Int) - (line_indent line : Int)
  if delta ≠ 0 then (line, qtMoveLeft col delta) else (line, 0)

/-- CodeEdit.show_tooltip (lines 571-583): when a sender decoration is given
but is no longer among the editor's decorations the request is dropped,
otherwise the first 1024 characters of the tooltip text are displayed.
Decorations are modelled by their identity; the result is the displayed
text, if any. -/
def show_tooltip (decorations : List Nat) (tooltip : List Char)
    (senderDeco : Option Nat) : Option (List Char) :=
  match senderDeco with
  | some d => if d ∈ decorations then some (tooltip.take 1024) else none
  | none => some (tooltip.take 1024)

end PyQode

namespace PyQode

/-! ## Registry lemmas and theorems -/

/-- Searching for a key among the entries from which that key was just
filtered out finds nothing. -/
theorem find?_filter_not_key {α : Type} (f : α → String) (c : String)
    (r : List α) :
    (r.filter (fun x => !(f x == c))).find? (fun x => f x == c) = none := by
  rw [List.find?_eq_none]
  intro a ha
  have := List.of_mem_filter ha
  simpa using this

/-- Searching for a key in filtered-out entries followed by a matching entry
returns that entry. -/
theorem find?_filter_append {α : Type} (f : α → String) (c : String)
    (r : List α) (y : α) (hy : (f y == c) = true) :
    ((r.filter (fun x => !(f x == c))) ++ [y]).find? (fun x => f x == c) =
      some y := by
  induction r with
  | nil => simp [List.find?, hy]
  | cons a t ih =>
      by_cases h : (f a == c) = true
      · simpa [List.filter_cons, h] using ih
      · simpa [List.filter_cons, h, List.find?_cons] using ih

/-- C1: for every editor, calling modes.remove (respectively panels.remove)
with a mode (panel) class that is not currently installed raises KeyError,
and a second remove of the same class immediately after a successful remove
also raises KeyError. -/
theorem remove_unregistered_raises :
    (∀ (r : List ModeObj) (cls : String),
      (modesGet r cls = none → modesRemove r cls = Except.error ()) ∧
      (∀ m r', modesRemove r cls = Except.ok (m, r') →
        modesRemove r' cls = Except.error ())) ∧
    (∀ (r : List PanelObj) (cls : String),
      (panelsGet r cls = none → panelsRemove r cls = Except.error ()) ∧
      (∀ p r', panelsRemove r cls = Except.ok (p, r') →
        panelsRemove r' cls = Except.error ())) := by
  constructor
  · intro r cls
    constructor
    · intro h
      unfold modesRemove
      rw [show r.find? (fun x => x.cls == cls) = none from h]
    · intro m r' h
      unfold modesRemove at h ⊢
      cases hf : r.find? (fun x => x.cls == cls) with
      | none => rw [hf] at h; exact absurd h (by simp)
      | some m0 =>
          rw [hf] at h
          have hr' : r' = r.filter (fun x => !(x.cls == cls)) :=
            (congrArg Prod.snd (Except.ok.inj h)).symm
          rw [hr', find?_filter_not_key (fun x => x.cls) cls r]
  · intro r cls
    constructor
    · intro h
      unfold panelsRemove
      rw [show r.find? (fun x => x.cls == cls) = none from h]
    · intro p r' h
      unfold panelsRemove at h ⊢
      cases hf : r.find? (fun x => x.cls == cls) with
      | none => rw [hf] at h; exact absurd h (by simp)
      | some p0 =>
          rw [hf] at h
          have hr' : r' = r.filter (fun x => !(x.cls == cls)) :=
            (congrArg Prod.snd (Except.ok.inj h)).symm
          rw [hr', find?_filter_not_key (fun x => x.cls) cls r]

/-- Witness for C1: the empty registries have nothing installed, and removing
raises KeyError there. -/
theorem remove_unregistered_raises_witness :
    modesRemove ([] : List ModeObj) "CaseConverterMode" = Except.error () ∧
    panelsRemove ([] : List PanelObj) "LineNumberPanel" = Except.error () :=
  ⟨(remove_unregistered_raises.1 [] "CaseConverterMode").1 rfl,
   (remove_unregistered_raises.2 [] "LineNumberPanel").1 rfl⟩

/-- C5: starting from an empty modes registry, after modes.append(m) the call
modes.get on the class of m returns the very same object m and the registry
length is 1; modes.remove on that class then returns m and leaves the registry
empty; and clear() on any modes/panels registry leaves length 0. -/
theorem registry_install_retrieve_remove (m : ModeObj) (r : List ModeObj)
    (q : List PanelObj) :
    modesGet (modesAppend [] m) m.cls = some m ∧
    (modesAppend [] m).length = 1 ∧
    modesRemove (modesAppend [] m) m.cls = Except.ok (m, []) ∧
    (modesClear r).length = 0 ∧
    (panelsClear q).length = 0 := by
  refine ⟨?_, ?_, ?_, rfl, rfl⟩
  · simp [modesAppend, modesGet, List.find?]
  · simp [modesAppend]
  · simp [modesAppend, modesRemove, List.find?, List.filter]

/-- C7: a panel appended via panels.append(panel, position) with position one
of the four zones is retrieved by panels.get as a panel whose position
attribute equals the zone given at installation. -/
theorem panel_position_after_append (r : List PanelObj) (p : PanelObj)
    (pos : ZonePosition) :
    panelsGet (panelsAppend r p pos) p.cls = some { p with position := pos } ∧
    ({ p with position := pos } : PanelObj).position = pos :=
  ⟨by
    unfold panelsGet panelsAppend
    exact find?_filter_append (fun x => x.cls) p.cls r
      { p with position := pos } (by simp),
   rfl⟩

/-! ## Editor state lemmas -/

@[simp] theorem propagate_doc (f : EditorCfg → EditorCfg) (e : Editor) :
    (propagate f e).doc = e.doc := by
  cases e; simp [propagate, Editor.doc]

@[simp] theorem propagate_cfg (f : EditorCfg → EditorCfg) (e : Editor) :
    (propagate f e).cfg = f e.cfg := by
  cases e; simp [propagate, Editor.cfg]

@[simp] theorem propagate_clones (f : EditorCfg → EditorCfg) (e : Editor) :
    (propagate f e).clones = propagateList f e.clones := by
  cases e; simp [propagate, Editor.clones]

theorem propagateList_mem {f : EditorCfg → EditorCfg} {l : List Editor}
    {c : Editor} :
    c ∈ propagateList f l → ∃ c0 ∈ l, c = propagate f c0 := by
  induction l with
  | nil => intro hc; simp [propagateList] at hc
  | cons a t ih =>
      intro hc
      rw [propagateList, List.mem_cons] at hc
      rcases hc with hc | hc
      · exact ⟨a, List.mem_cons_self a t, hc⟩
      · obtain ⟨c0, hc0, hceq⟩ := ih hc
        exact ⟨c0, List.mem_cons_of_mem a hc0, hceq⟩

/-- A clone-propagating setter assigns the same value to the editor itself
and to each of its clones. -/
theorem propagate_clone_sync {α : Type} (f : EditorCfg → EditorCfg)
    (g : EditorCfg → α) (v : α) (hv : ∀ c, g (f c) = v) (e : Editor) :
    (∀ c ∈ (propagate f e).clones, g c.cfg = v) ∧
    g (propagate f e).cfg = v := by
  refine ⟨?_, by rw [propagate_cfg]; exact hv _⟩
  intro c hc
  rw [propagate_clones] at hc
  obtain ⟨c0, _, rfl⟩ := propagateList_mem hc
  rw [propagate_cfg]
  exact hv _

@[simp] theorem set_zoom_level_doc (v : Int) (e : Editor) :
    (set_zoom_level v e).doc = e.doc := by
  cases e; rfl

@[simp] theorem set_zoom_level_zoom (v : Int) (e : Editor) :
    (set_zoom_level v e).zoom_level = v := by
  cases e; rfl

@[simp] theorem set_zoom_level_font_size (v : Int) (e : Editor) :
    (set_zoom_level v e).font_size = e.font_size := by
  cases e; rfl

@[simp] theorem set_zoom_level_clones (v : Int) (e : Editor) :
    (set_zoom_level v e).clones = e.clones := by
  cases e; rfl

@[simp] theorem set_word_separators_doc (v : List Char) (e : Editor) :
    (set_word_separators v e).doc = e.doc := by
  cases e; rfl

@[simp] theorem setDocument_doc (d : Nat) (e : Editor) :
    (setDocument d e).doc = d := by
  cases e; rfl

@[simp] theorem setFileInfo_doc (fl : FileInfo) (e : Editor) :
    (setFileInfo fl e).doc = e.doc := by
  cases e; rfl

/-! ## Editor state theorems -/

/-- C2: after CodeEdit.link(clone), the clone references the very same text
document as the original, so a text edit made through either widget is
visible through the other. -/
theorem link_shares_document (orig clone : Editor) :
    (link orig clone).doc = orig.doc ∧
    (∀ (h : DocHeap) (f : String → String),
      readThrough (editThrough h orig f) (link orig clone) =
        f (readThrough h orig) ∧
      readThrough (editThrough h (link orig clone) f) orig =
        f (readThrough h (link orig clone))) := by
  have hdoc : (link orig clone).doc = orig.doc := by
    simp [link, set_use_spaces_instead_of_tabs, set_tab_length,
      set_min_indent_column, set_save_on_focus_out, set_show_whitespaces,
      set_font_name, set_font_size, set_background, set_foreground,
      set_whitespaces_foreground, set_selection_background,
      set_selection_foreground]
  refine ⟨hdoc, ?_⟩
  intro h f
  constructor
  · simp [readThrough, editThrough, hdoc]
  · simp [readThrough, editThrough, hdoc]

/-- C3: clones are kept configuration-synchronized with their original: after
assigning a configuration property of an editor, every clone in its clones
list holds the same value for that property. -/
theorem clone_config_sync (e : Editor) (bspaces bshow bsave : Bool)
    (ntab nmin isize : Int) (s : String) (cb cf cw csb csf : Option String) :
    (∀ c ∈ (set_tab_length ntab e).clones,
      c.tab_length = (set_tab_length ntab e).tab_length) ∧
    (∀ c ∈ (set_use_spaces_instead_of_tabs bspaces e).clones,
      c.use_spaces_instead_of_tabs =
        (set_use_spaces_instead_of_tabs bspaces e).use_spaces_instead_of_tabs) ∧
    (∀ c ∈ (set_font_size isize e).clones,
      c.font_size = (set_font_size isize e).font_size) ∧
    (∀ c ∈ (set_font_name s e).clones,
      c.font_name = (set_font_name s e).font_name) ∧
    (∀ c ∈ (set_background cb e).clones,
      c.background = (set_background cb e).background) ∧
    (∀ c ∈ (set_foreground cf e).clones,
      c.foreground = (set_foreground cf e).foreground) ∧
    (∀ c ∈ (set_show_whitespaces bshow e).clones,
      c.show_whitespaces = (set_show_whitespaces bshow e).show_whitespaces) ∧
    (∀ c ∈ (set_whitespaces_foreground cw e).clones,
      c.whitespaces_foreground =
        (set_whitespaces_foreground cw e).whitespaces_foreground) ∧
    (∀ c ∈ (set_selection_background csb e).clones,
      c.selection_background =
        (set_selection_background csb e).selection_background) ∧
    (∀ c ∈ (set_selection_foreground csf e).clones,
      c.selection_foreground =
        (set_selection_foreground csf e).selection_foreground) ∧
    (∀ c ∈ (set_min_indent_column nmin e).clones,
      c.min_indent_column = (set_min_indent_column nmin e).min_indent_column) ∧
    (∀ c ∈ (set_save_on_focus_out bsave e).clones,
      c.save_on_focus_out = (set_save_on_focus_out bsave e).save_on_focus_out) := by
  have key : ∀ {α : Type} (f : EditorCfg → EditorCfg) (g : EditorCfg → α)
      (v : α), (∀ c, g (f c) = v) →
      ∀ c ∈ (propagate f e).clones, g c.cfg = g (propagate f e).cfg := by
    intro α f g v hv c hc
    rw [(propagate_clone_sync f g v hv e).1 c hc,
      (propagate_clone_sync f g v hv e).2]
  refine ⟨?_, ?_, ?_, ?_, ?_, ?_, ?_, ?_, ?_, ?_, ?_, ?_⟩
  · exact key _ (fun c => c.tab_length) ntab (fun _ => rfl)
  · exact key _ (fun c => c.use_spaces_instead_of_tabs) bspaces (fun _ => rfl)
  · exact key _ (fun c => c.font_size) isize (fun _ => rfl)
  · exact key _ (fun c => c.font_name)
      (if s = "" then defaultFontName else s) (fun _ => rfl)
  · exact key _ (fun c => c.background) cb (fun _ => rfl)
  · exact key _ (fun c => c.foreground) cf (fun _ => rfl)
  · exact key _ (fun c => c.show_whitespaces) bshow (fun _ => rfl)
  · exact key _ (fun c => c.whitespaces_foreground) cw (fun _ => rfl)
  · exact key _ (fun c => c.selection_background) csb (fun _ => rfl)
  · exact key _ (fun c => c.selection_foreground) csf (fun _ => rfl)
  · exact key _ (fun c => c.min_indent_column) nmin (fun _ => rfl)
  · exact key _ (fun c => c.save_on_focus_out) bsave (fun _ => rfl)

/-- Witness for C3. -/
theorem clone_config_sync_witness :
    Editor.tab_length (set_tab_length 8 sampleClone) =
      Editor.tab_length (set_tab_length 8 sampleEditor) :=
  (clone_config_sync sampleEditor true false false 8 0 12 "Monaco"
      (some "w") (some "b") (some "g") (some "h") (some "t")).1
    (set_tab_length 8 sampleClone)
    (by simp [set_tab_length, sampleEditor, sampleClone, sampleCfg, sampleFile,
      propagate, propagateList, Editor.clones])

/-- C4: zoom is per-view state: assigning zoom_level on an editor changes only
that editor's zoom level and leaves its linked clones untouched. -/
theorem zoom_level_is_per_view (e c : Editor) (v : Int) (h : c ∈ e.clones) :
    (set_zoom_level v e).zoom_level = v ∧
    (set_zoom_level v e).clones = e.clones ∧
    c ∈ (set_zoom_level v e).clones := by
  refine ⟨set_zoom_level_zoom v e, set_zoom_level_clones v e, ?_⟩
  rw [set_zoom_level_clones]
  exact h

/-- Witness for C4. -/
theorem zoom_level_is_per_view_witness :
    (set_zoom_level 3 sampleEditor).zoom_level = 3 ∧
    (set_zoom_level 3 sampleEditor).clones = sampleEditor.clones ∧
    sampleClone ∈ (set_zoom_level 3 sampleEditor).clones :=
  zoom_level_is_per_view sampleEditor sampleClone 3
    (by simp [sampleEditor, Editor.clones])

/-- C8: after zoom_out with any decrement the effective font size
font_size + zoom_level is at least 1, while zoom_in applies no clamp and
simply adds its increment to the zoom level. -/
theorem zoom_out_clamps_effective_font_size (e : Editor) (d i : Int) :
    1 ≤ (zoom_out e d).font_size + (zoom_out e d).zoom_level ∧
    (zoom_in e i).zoom_level = e.zoom_level + i := by
  constructor
  · unfold zoom_out
    by_cases hc : (set_zoom_level (e.zoom_level - d) e).font_size +
        (set_zoom_level (e.zoom_level - d) e).zoom_level ≤ 0
    · rw [if_pos hc]
      rw [set_zoom_level_font_size, set_zoom_level_font_size,
        set_zoom_level_zoom]
      omega
    · rw [if_neg hc]
      rw [set_zoom_level_font_size, set_zoom_level_zoom] at hc ⊢
      omega
  · unfold zoom_in
    exact set_zoom_level_zoom _ _

/-! ## Auto-indent, home key and tooltip theorems -/

/-- C6: when AutoIndentMode is enabled and a Return/Enter key press reaches
it unaccepted, it inserts a newline followed by the leading whitespace of the
line under the cursor — min_indent instead whenever that leading whitespace
is shorter than min_indent — and accepts the event (the text after the
cursor additionally has its leading spaces eaten, which the full
characterization below records). -/
theorem auto_indent_on_enter (minIndent text : List Char) (pos : Nat)
    (key : Nat) (hkey : key = qtKeyReturn ∨ key = qtKeyEnter) :
    (autoIndentModeKeyPress true minIndent ⟨key, false⟩ ⟨text, pos⟩).1.text =
      text.take pos ++ '\n' ::
        ((if ((lineUnderCursor text pos).takeWhile isPyWhitespace).length <
              minIndent.length then minIndent
          else (lineUnderCursor text pos).takeWhile isPyWhitespace) ++
          (eatPossibleWhitespaces (text.drop pos)).1) ∧
    (autoIndentModeKeyPress true minIndent ⟨key, false⟩ ⟨text, pos⟩).2 = true := by
  unfold autoIndentModeKeyPress autoIndentOnKeyPressed
  rw [if_pos rfl]
  simp only [Bool.false_eq_true, if_false]
  rw [if_pos hkey]
  exact ⟨rfl, rfl⟩

/-- Witness for C6: pressing Return at the end of a line indented by two
spaces opens a new line indented by two spaces and accepts the event. -/
theorem auto_indent_on_enter_witness :
    (autoIndentModeKeyPress true [] ⟨qtKeyReturn, false⟩
      ⟨"  ab".data, 4⟩).1.text = "  ab\n  ".data ∧
    (autoIndentModeKeyPress true [] ⟨qtKeyReturn, false⟩
      ⟨"  ab".data, 4⟩).2 = true := by
  have h := auto_indent_on_enter [] "  ab".data 4 qtKeyReturn (Or.inl rfl)
  exact ⟨by rw [h.1]; decide, h.2⟩

/-- C9 counterexample: on the line "    x" (indentation width 4) with the
cursor at column 2, the column differs from the indentation width, yet
_do_home_key leaves the cursor at column 2 instead of landing it on the
first non-whitespace character: the requested left move by the negative
delta 2 - 4 never runs. -/
theorem smart_home_key_counterexample :
    line_indent "    x".data = 4 ∧
    (do_home_key "    x".data 2).2 = 2 ∧
    (do_home_key "    x".data 2).2 ≠ line_indent "    x".data := by
  refine ⟨by decide, by decide, by decide⟩

/-- C9 as amended: _do_home_key never modifies the text; when the cursor
column exceeds the line indentation width, the cursor moves left by
(column - line_indent) characters, landing on the first non-whitespace
character; when the column equals the indentation width, the cursor moves to
the start of the block; when the column is smaller, the cursor does not
move. -/
theorem smart_home_key_amended (line : List Char) (col : Nat) :
    (do_home_key line col).1 = line ∧
    (line_indent line < col → (do_home_key line col).2 = line_indent line) ∧
    (col = line_indent line → (do_home_key line col).2 = 0) ∧
    (col < line_indent line → (do_home_key line col).2 = col) := by
  simp only [do_home_key, qtMoveLeft]
  refine ⟨?_, ?_, ?_, ?_⟩
  · split
    · rfl
    · rfl
  · intro h
    rw [if_pos (show ((col : Int) - (line_indent line : Int)) ≠ 0 by omega),
      if_pos (show (1 : Int) ≤ (col : Int) - (line_indent line : Int) by
        omega)]
    show col - ((col : Int) - (line_indent line : Int)).toNat = line_indent line
    omega
  · intro h
    rw [if_neg (show ¬((col : Int) - (line_indent line : Int)) ≠ 0 by omega)]
  · intro h
    rw [if_pos (show ((col : Int) - (line_indent line : Int)) ≠ 0 by omega),
      if_neg (show ¬(1 : Int) ≤ (col : Int) - (line_indent line : Int) by
        omega)]

/-- Witness for the amended C9: at column 5 of "    x" the cursor lands on
column 4, the first non-whitespace character. -/
theorem smart_home_key_amended_witness :
    (do_home_key "    x".data 5).2 = line_indent "    x".data :=
  (smart_home_key_amended "    x".data 5).2.1 (by decide)

/-- C10: show_tooltip displays at most the first 1024 characters of the
tooltip text (exactly its 1024-character prefix), and returns without
displaying anything when the sender decoration is not among the editor's
decorations. -/
theorem show_tooltip_truncates (decorations : List Nat) (tooltip : List Char)
    (senderDeco : Option Nat) :
    (∀ t, show_tooltip decorations tooltip senderDeco = some t →
      t = tooltip.take 1024 ∧ t.length ≤ 1024 ∧ t <+: tooltip) ∧
    (∀ d, senderDeco = some d → d ∉ decorations →
      show_tooltip decorations tooltip senderDeco = none) := by
  constructor
  · intro t ht
    have hteq : t = tooltip.take 1024 := by
      cases senderDeco with
      | none => exact (Option.some.inj ht).symm
      | some d =>
          have ht' : (if d ∈ decorations then some (tooltip.take 1024)
              else none) = some t := ht
          by_cases hd : d ∈ decorations
          · rw [if_pos hd] at ht'
            exact (Option.some.inj ht').symm
          · rw [if_neg hd] at ht'
            exact absurd ht' (by simp)
    refine ⟨hteq, ?_, ?_⟩
    · rw [hteq, List.length_take]
      exact min_le_left _ _
    · rw [hteq]
      exact List.take_prefix _ _
  · intro d hd hnot
    subst hd
    show (if d ∈ decorations then some (tooltip.take 1024) else none) = none
    rw [if_neg hnot]

/-- Witness for C10: a short tooltip is displayed whole, and a request from a
dropped decoration displays nothing. -/
theorem show_tooltip_truncates_witness :
    ("tip".data = "tip".data.take 1024 ∧ "tip".data.length ≤ 1024 ∧
      "tip".data <+: "tip".data) ∧
    show_tooltip [0] "tip".data (some 1) = none :=
  ⟨(show_tooltip_truncates [] "tip".data none).1 "tip".data rfl,
   (show_tooltip_truncates [0] "tip".data (some 1)).2 1 rfl (by decide)⟩

end PyQode
